import Mathlib

/-!
Verification of the finding persistence and crash-input deduplication
subsystem (`pkg/finding/finding.go`).

The Go code is shallowly embedded: the filesystem is an explicit state
(a finite association list from path strings to file contents, plus a
list of created directories), every fallible operation returns `Except`,
and byte sequences (Go `[]byte`) are modelled as `String` (contents are
only ever compared for equality, copied verbatim, and searched for as
substrings, so this is faithful).

Path conventions: paths are plain strings; `filepath.Join` is modelled
for clean components as concatenation with a single separator, and
`filepath.Rel` is modelled for the cases exercised by this code
(identical paths and a base that is a path-prefix of the target).
-/

/-! ## Path model -/

/-- Models Go `filepath.Join` for clean, nonempty path components:
concatenation with a single `/` separator. -/
def joinPath (a b : String) : String := a ++ "/" ++ b

/-- Models Go `filepath.IsAbs` on Unix: a path is absolute iff it starts
with a separator. -/
def isAbs (p : String) : Bool := p.data.take 1 == ['/']

/-- Resolution of a possibly-relative path against the working directory,
as the OS does for Go `os.ReadFile`/`os.Remove` calls. -/
def resolve (cwd p : String) : String := if isAbs p then p else joinPath cwd p

/-- Models Go `filepath.Rel base target` for the cases this code
exercises: if the paths are equal the result is `.`, and if `base ++ "/"`
is a prefix of `target` the result is the remainder of `target`.  Other
inputs (which the store paths never produce) are not modelled and yield
an error. -/
def rel (base target : String) : Except String String :=
  if target = base then Except.ok (".")
  else if (base ++ "/").data.isPrefixOf target.data then
    Except.ok (String.mk (target.data.drop (base.length + 1)))
  else Except.error ("rel: case not modelled")

/-- True iff path `p` lies strictly inside directory `dir`. -/
def underDir (dir p : String) : Bool := (dir ++ "/").data.isPrefixOf p.data

/-! ## Error kinds

Modelled from the spec: the error wrappers `WrapAlreadyExistsError` and
`WrapNotExistError` referenced by `finding.go` are declared outside the
sources at hand; per the spec's error taxonomy (AlreadyExists / NotExist /
LockFailure / IOFailure as a closed set of distinguishable variants) they
are modelled as constructors of one inductive error type. -/

inductive Err where
  | alreadyExists (msg : String)
  | notExist
  | lockFailure (msg : String)
  | ioError (msg : String)
deriving DecidableEq, Repr

/-! ## Filesystem state -/

/-- Filesystem state: a finite map from file path to file contents,
plus the set of directories created so far. -/
structure FS where
  files : List (String × String)
  dirs : List String
deriving DecidableEq, Repr

/-- Lookup of a file's contents by path (first binding wins). -/
def lookupFile : List (String × String) → String → Option String
  | [], _ => none
  | (q, c) :: rest, p => if q = p then some c else lookupFile rest p

/-- Removal of every binding for a path. -/
def eraseFile : List (String × String) → String → List (String × String)
  | [], _ => []
  | (q, c) :: rest, p => if q = p then eraseFile rest p else (q, c) :: eraseFile rest p

/-- Models Go `fileutil.Exists` (a stat that reports whether the file
exists). -/
def existsFile (fs : FS) (p : String) : Bool := (lookupFile fs.files p).isSome

/-- Models Go `os.WriteFile` / `copy.Copy`'s write half: create or
truncate the target file. -/
def writeFile (fs : FS) (p c : String) : FS :=
  { files := (p, c) :: eraseFile fs.files p, dirs := fs.dirs }

/-- Models Go `os.Remove`: fails when the file does not exist. -/
def removeFile (fs : FS) (p : String) : Except Err FS :=
  if existsFile fs p then
    Except.ok { files := eraseFile fs.files p, dirs := fs.dirs }
  else Except.error (Err.ioError ("remove: file does not exist"))

/-- Models Go `os.MkdirAll`: records the directory (ancestors are implied
by `dirExists`, which also looks below the queried directory). -/
def mkdirAll (fs : FS) (p : String) : FS :=
  { files := fs.files, dirs := p :: fs.dirs }

/-- A directory exists when it was created, a created directory lies
below it, or a file lies below it. -/
def dirExists (fs : FS) (dir : String) : Bool :=
  fs.dirs.any (fun d => d = dir || underDir dir d) ||
    fs.files.any (fun e => underDir dir e.1)

/-! ## strings.ReplaceAll -/

/-- Core of Go `strings.ReplaceAll` for a nonempty pattern: scan left to
right, replacing each non-overlapping occurrence of `pat` by `rep`. -/
def replaceCore (pat rep : List Char) : List Char → List Char
  | [] => []
  | c :: rest =>
    if pat.isPrefixOf (c :: rest) then
      rep ++ replaceCore pat rep (rest.drop (pat.length - 1))
    else c :: replaceCore pat rep rest
termination_by l => l.length
decreasing_by
  · simp only [List.length_cons, List.length_drop]
    omega
  · simp only [List.length_cons]
    omega

/-- Models Go `strings.ReplaceAll s pat rep` (for the empty pattern Go
inserts the replacement before every character and at the end). -/
def goReplaceAll (s pat rep : String) : String :=
  if pat.data = [] then
    String.mk (rep.data ++ (s.data.map (fun c => c :: rep.data)).flatten)
  else String.mk (replaceCore pat.data rep.data s.data)

/-! ## Finding record (`finding.go` lines 22-69) -/

def nameCrashingInput : String := "crashing-input"
def nameJsonFile : String := "finding.json"
def nameFindingsDir : String := ".cifuzz-findings"
def lockFile : String := ".lock"

/-- Go `type ErrorType string`. -/
abbrev ErrorType : Type := String

def ErrorType_UNKNOWN_ERROR : ErrorType := ("UNKNOWN_ERROR" : String)
def ErrorType_COMPILATION_ERROR : ErrorType := ("COMPILATION_ERROR" : String)
def ErrorType_CRASH : ErrorType := ("CRASH" : String)
def ErrorType_WARNING : ErrorType := ("WARNING" : String)
def ErrorType_RUNTIME_ERROR : ErrorType := ("RUNTIME_ERROR" : String)

/-- Go `Severity`.  `Score float32` matters to the claims only through
the keys of the enclosing object, never through its numeric value; its
value is modelled as `Nat`. -/
structure Severity where
  Description : String
  Score : Nat
deriving DecidableEq, Repr

/-- Go `ErrorDetails`. -/
structure ErrorDetails where
  Id : String
  Name : String
  Severity_ : Option Severity
deriving DecidableEq, Repr

/-- JSON values as produced by Go `encoding/json` for this record.
`bytes` stands for the base64 string rendering of a `[]byte` field and
`timeVal` for the RFC3339 string rendering of a `time.Time`; their
precise textual forms are external stdlib behaviour that no claim
depends on. -/
inductive Json where
  | str (s : String)
  | num (n : Nat)
  | bytes (b : String)
  | timeVal (t : Nat)
  | arr (xs : List Json)
  | obj (kvs : List (String × Json))

/-- Stack frames (`stacktrace.StackFrame`) are an external type; only
their marshalled JSON form matters here. -/
abbrev StackFrame : Type := Json

/-- The Finding record (`finding.go` lines 27-45).  `CreatedAt`
(`time.Time`) is modelled as a numeric timestamp; `seedPath` is the
unexported in-memory field. -/
structure Finding where
  Name : String := ""
  Type_ : ErrorType := ("" : String)
  InputData : String := ""
  Logs : List String := []
  Details : String := ""
  HumanReadableInput : String := ""
  MoreDetails : Option ErrorDetails := none
  Tag : Nat := 0
  ShortDescription : String := ""
  InputFile : String := ""
  CreatedAt : Nat := 0
  StackTrace : List StackFrame := []
  seedPath : String := ""

/-- Go `(f *Finding) GetDetails()`: a method on a possibly-nil pointer,
modelled on `Option Finding`; a nil receiver yields the empty string. -/
def GetDetails (f : Option Finding) : String :=
  match f with
  | some f => f.Details
  | none => ""

/-- Go `(f *Finding) GetSeedPath()`: same nil-receiver convention. -/
def GetSeedPath (f : Option Finding) : String :=
  match f with
  | some f => f.seedPath
  | none => ""

/-! ## JSON encoding (`saveJson`, struct tags of `Finding`) -/

/-- Severity as marshalled by `encoding/json` (keys `description`,
`score`, both `omitempty`). -/
def severityJson (s : Severity) : Json :=
  Json.obj
    ((if s.Description = "" then [] else [(("description" : String), Json.str s.Description)]) ++
      (if s.Score = 0 then [] else [(("score" : String), Json.num s.Score)]))

/-- ErrorDetails as marshalled by `encoding/json` (keys `id`, `name`,
`severity`, all `omitempty`; `severity` is a pointer, empty iff nil). -/
def errorDetailsJson (d : ErrorDetails) : Json :=
  Json.obj
    ((if d.Id = "" then [] else [(("id" : String), Json.str d.Id)]) ++
      (if d.Name = "" then [] else [(("name" : String), Json.str d.Name)]) ++
      (match d.Severity_ with
        | none => []
        | some s => [(("severity" : String), severityJson s)]))

/-- The key/value pairs of the marshalled Finding, in struct order, with
Go `encoding/json` `omitempty` semantics: a tagged field is dropped when
its value is empty (empty string, empty slice, nil pointer, zero
integer).  `InputFile` carries no tag, so it keeps its Go field name and
is always emitted; `created_at` is a struct (`time.Time`), which
`encoding/json` never treats as empty, so it too is always emitted. -/
def findingFields (f : Finding) : List (String × Json) :=
  (if f.Name = "" then [] else [(("name" : String), Json.str f.Name)]) ++
    (if f.Type_ = ("" : String) then [] else [(("type" : String), Json.str f.Type_)]) ++
    (if f.InputData = "" then [] else [(("input_data" : String), Json.bytes f.InputData)]) ++
    (if f.Logs = [] then [] else [(("logs" : String), Json.arr (f.Logs.map Json.str))]) ++
    (if f.Details = "" then [] else [(("details" : String), Json.str f.Details)]) ++
    (if f.HumanReadableInput = "" then []
      else [(("human_readable_input" : String), Json.str f.HumanReadableInput)]) ++
    (match f.MoreDetails with
      | none => []
      | some d => [(("more_details" : String), errorDetailsJson d)]) ++
    (if f.Tag = 0 then [] else [(("tag" : String), Json.num f.Tag)]) ++
    (if f.ShortDescription = "" then []
      else [(("short_description" : String), Json.str f.ShortDescription)]) ++
    [(("InputFile" : String), Json.str f.InputFile)] ++
    [(("created_at" : String), Json.timeVal f.CreatedAt)] ++
    (if f.StackTrace.isEmpty then [] else [(("stack_trace" : String), Json.arr f.StackTrace)])

mutual
/-- Renderer standing in for `json.MarshalIndent` (string escaping and
indentation are stdlib details no claim depends on; what matters is that
the persisted bytes are a function of the key/value structure). -/
def renderJson : Json → String
  | Json.str s => "\"" ++ s ++ "\""
  | Json.num n => toString n
  | Json.bytes b => "\"" ++ b ++ "\""
  | Json.timeVal t => "\"" ++ toString t ++ "\""
  | Json.arr xs => "[" ++ renderJsonList xs ++ "]"
  | Json.obj kvs => "\x7b" ++ renderObjList kvs ++ "\x7d"

def renderJsonList : List Json → String
  | [] => ""
  | [x] => renderJson x
  | x :: y :: rest => renderJson x ++ "," ++ renderJsonList (y :: rest)

def renderObjList : List (String × Json) → String
  | [] => ""
  | [(k, v)] => "\"" ++ k ++ "\":" ++ renderJson v
  | (k, v) :: e :: rest =>
    "\"" ++ k ++ "\":" ++ renderJson v ++ "," ++ renderObjList (e :: rest)
end

/-- The bytes `saveJson` writes: the rendering of the marshalled
record. -/
def renderFinding (f : Finding) : String := renderJson (Json.obj (findingFields f))

/-! ## Save / Exists (`finding.go` lines 85-128) -/

/-- Go `(f *Finding) Exists(projectDir)`. -/
def FindingExists (f : Finding) (projectDir : String) (fs : FS) : Bool :=
  existsFile fs (joinPath (joinPath (joinPath projectDir nameFindingsDir) f.Name) nameJsonFile)

/-- Go `(f *Finding) Save(projectDir)`: create the finding directory,
fail with AlreadyExists when the metadata file is present, else write
the marshalled record. -/
def Save (f : Finding) (projectDir : String) (fs : FS) : Except Err FS :=
  let findingDir := joinPath (joinPath projectDir nameFindingsDir) f.Name
  let fs1 := mkdirAll fs findingDir
  let jsonPath := joinPath findingDir nameJsonFile
  if existsFile fs1 jsonPath then
    Except.error (Err.alreadyExists ("Finding " ++ f.Name ++ " already exists"))
  else Except.ok (writeFile fs1 jsonPath (renderFinding f))

/-! ## Content store writer (`moveInputFile`, `finding.go` lines 164-259) -/

/-- Path of slot `i` inside a finding directory:
`findingDir/crashing-input-<i>`. -/
def slotPath (findingDir : String) (i : Nat) : String :=
  joinPath findingDir (nameCrashingInput ++ "-" ++ toString i)

/-- Corpus path for slot `i`: `seedCorpusDir/<name>-<i>`. -/
def corpusPath (seedCorpusDir name : String) (i : Nat) : String :=
  joinPath seedCorpusDir (name ++ "-" ++ toString i)

/-- The slot-choosing loop of `moveInputFile` (lines 171-205): starting
at slot `i`, return `some i` for the first free slot, or `none` when an
existing slot already holds exactly the new input's bytes.  The Go loop
terminates because slots are finitely many; here that is made explicit
with a fuel argument, instantiated by the caller with more fuel than
there are files, so the fuel branch is never taken on reachable
inputs. -/
def scanSlot (fs : FS) (findingDir src : String) : Nat → Nat → Except Err (Option Nat)
  | 0, _ => Except.error (Err.ioError ("out of fuel"))
  | fuel + 1, i =>
    let path := slotPath findingDir i
    match lookupFile fs.files path with
    | none => Except.ok (some i)
    | some contentExistingFile =>
      match lookupFile fs.files src with
      | none => Except.error (Err.ioError ("read input file: file does not exist"))
      | some contentNewFile =>
        if contentExistingFile = contentNewFile then Except.ok none
        else scanSlot fs findingDir src fuel (i + 1)

/-- Go `(f *Finding) moveInputFile(projectDir, seedCorpusDir)` (lines
164-259), the operation run under the lock.  `cwd` is the process
working directory (`os.Getwd`); relative paths handed to the OS resolve
against it. -/
def moveInputFile (f : Finding) (projectDir seedCorpusDir cwd : String) (fs : FS) :
    Except Err (Finding × FS) :=
  let findingDir := joinPath (joinPath projectDir nameFindingsDir) f.Name
  let src := resolve cwd f.InputFile
  match scanSlot fs findingDir src (fs.files.length + 1) 1 with
  | Except.error e => Except.error e
  | Except.ok none =>
    -- the input already exists in the finding directory: no mutation
    Except.ok (f, fs)
  | Except.ok (some i) =>
    let path := slotPath findingDir i
    -- copy.Copy(f.InputFile, path)
    match lookupFile fs.files src with
    | none => Except.error (Err.ioError ("copy: source file does not exist"))
    | some content =>
      let fs1 := writeFile fs path content
      let fs2 := mkdirAll fs1 seedCorpusDir
      let seedP := corpusPath seedCorpusDir f.Name i
      let fs3 := writeFile fs2 seedP content
      match removeFile fs3 src with
      | Except.error e => Except.error e
      | Except.ok fs4 =>
        match rel cwd path with
        | Except.error e => Except.error (Err.ioError e)
        | Except.ok relPath =>
          let logs := f.Logs.map (fun line => goReplaceAll line f.InputFile relPath)
          match rel projectDir path with
          | Except.error e => Except.error (Err.ioError e)
          | Except.ok pathRelativeToProjectDir =>
            Except.ok
              ({ f with
                  Logs := logs
                  seedPath := seedP
                  InputFile := pathRelativeToProjectDir }, fs4)

/-- Go `(f *Finding) MoveInputFile(projectDir, seedCorpusDir)` (lines
132-162): the lock-guarded store.  The file mutex is an external OS
facility; the outcomes of acquiring (`filemutex.New` + `Lock`) and of
releasing it are inputs `lockErr` / `unlockErr`.  The second component
records whether the release was attempted. -/
def MoveInputFile (f : Finding) (projectDir seedCorpusDir cwd : String)
    (lockErr unlockErr : Option Err) (fs : FS) : Except Err (Finding × FS) × Bool :=
  let findingDir := joinPath (joinPath projectDir nameFindingsDir) f.Name
  let fs1 := mkdirAll fs findingDir
  match lockErr with
  | some e => (Except.error e, false)
  | none =>
    match moveInputFile f projectDir seedCorpusDir cwd fs1 with
    | Except.ok v =>
      -- fn succeeded: a release failure is propagated
      (match unlockErr with
        | some ue => Except.error ue
        | none => Except.ok v, true)
    | Except.error e =>
      -- fn failed: a release failure is only logged, fn's error wins
      (Except.error e, true)

/-- Iterated store: `iterStore n` runs the lock-guarded `MoveInputFile`
(with the lock acquiring and releasing cleanly) `n` times, threading the
finding and the filesystem. -/
def iterStore (projectDir seedCorpusDir cwd : String) :
    Nat → Finding × FS → Except Err (Finding × FS)
  | 0, st => Except.ok st
  | n + 1, (f, fs) =>
    match (MoveInputFile f projectDir seedCorpusDir cwd none none fs).1 with
    | Except.error e => Except.error e
    | Except.ok st => iterStore projectDir seedCorpusDir cwd n st

/-- The finding directory of a named finding:
`projectDir/.cifuzz-findings/<name>`. -/
def findingDirOf (projectDir name : String) : String :=
  joinPath (joinPath projectDir nameFindingsDir) name

/-- Slot `i`'s path relative to the project directory:
`.cifuzz-findings/<name>/crashing-input-<i>`. -/
def relSlot (name : String) (i : Nat) : String :=
  joinPath (joinPath nameFindingsDir name) (nameCrashingInput ++ "-" ++ toString i)

/-! ## Repository: load and list (`finding.go` lines 263-309) -/

/-- Go `LoadFinding(projectDir, findingName)`: read the metadata file
(absent file yields the NotExist kind) and decode it.  `dec` stands for
the external `json.Unmarshal`. -/
def LoadFinding (dec : String → Except Err Finding) (projectDir findingName : String)
    (fs : FS) : Except Err Finding :=
  let findingDir := joinPath (joinPath projectDir nameFindingsDir) findingName
  let jsonPath := joinPath findingDir nameJsonFile
  match lookupFile fs.files jsonPath with
  | none => Except.error Err.notExist
  | some bs => dec bs

/-- Lexicographic order on character lists, for directory listings. -/
def lexLe : List Char → List Char → Bool
  | [], _ => true
  | _ :: _, [] => false
  | a :: as, b :: bs => if a < b then true else if b < a then false else lexLe as bs

/-- Name of the immediate child of `dir` that `p` lies under, if any. -/
def childOf (dir p : String) : Option String :=
  if underDir dir p then
    let restChars := p.data.drop (dir.length + 1)
    let c := restChars.takeWhile (fun ch => decide (ch ≠ '/'))
    if c.isEmpty then none else some (String.mk c)
  else none

/-- Duplicate removal keeping first occurrences. -/
def dedupNames : List String → List String
  | [] => []
  | x :: xs => x :: dedupNames (xs.filter (fun y => decide (y ≠ x)))
termination_by l => l.length
decreasing_by
  have := List.length_filter_le (fun y => decide (y ≠ x)) xs
  simp only [List.length_cons]
  omega

/-- Models Go `os.ReadDir`'s entry list: the immediate children of
`dir` (from created directories and from stored file paths), without
duplicates, sorted by name as `os.ReadDir` guarantees. -/
def childNames (fs : FS) (dir : String) : List String :=
  List.insertionSort (fun a b => lexLe a.data b.data = true)
    (dedupNames (fs.dirs.filterMap (childOf dir) ++ fs.files.filterMap (fun e => childOf dir e.1)))

/-- The loading loop of `ListFindings` (lines 274-280): first failure
aborts. -/
def loadAll (dec : String → Except Err Finding) (projectDir : String) (fs : FS) :
    List String → Except Err (List Finding)
  | [] => Except.ok []
  | n :: ns =>
    match LoadFinding dec projectDir n fs with
    | Except.error e => Except.error e
    | Except.ok f =>
      match loadAll dec projectDir fs ns with
      | Except.error e => Except.error e
      | Except.ok l => Except.ok (f :: l)

/-- The comparator of `sort.SliceStable` (line 284):
`res[i].CreatedAt.After(res[j].CreatedAt)` — sort newest first. -/
def createdAfter (a b : Finding) : Prop := b.CreatedAt < a.CreatedAt

instance : DecidableRel createdAfter := fun a b => Nat.decLt b.CreatedAt a.CreatedAt

/-- Placement relation of the stable sort by the strict comparator
`createdAfter`: a stable sort puts `a` before `b` exactly when `b` is
not strictly newer than `a` (ties keep the original order, which
insertion with this non-strict relation realizes). -/
abbrev newestFirst (a b : Finding) : Prop := ¬ createdAfter b a

instance : DecidableRel newestFirst := fun a b =>
  instDecidableNot (p := createdAfter b a)

instance : IsTotal Finding newestFirst :=
  ⟨fun a b => by
    simp only [newestFirst, createdAfter, not_lt]
    omega⟩

instance : IsTrans Finding newestFirst :=
  ⟨fun a b c hab hbc => by
    simp only [newestFirst, createdAfter, not_lt] at *
    omega⟩

/-- Go `ListFindings(projectDir)` (lines 263-288): a missing findings
root yields the empty list; otherwise every child is loaded and the
result is stably sorted newest-first.  `sort.SliceStable` with the
strict `createdAfter` comparator is modelled by the stable
`List.insertionSort` with the matching placement relation
`newestFirst`. -/
def ListFindings (dec : String → Except Err Finding) (projectDir : String) (fs : FS) :
    Except Err (List Finding) :=
  let findingsDir := joinPath projectDir nameFindingsDir
  if dirExists fs findingsDir then
    match loadAll dec projectDir fs (childNames fs findingsDir) with
    | Except.error e => Except.error e
    | Except.ok res => Except.ok (List.insertionSort newestFirst res)
  else Except.ok []

/-! ## Supporting lemmas: filesystem primitives -/

theorem lookupFile_cons (q c p : String) (l : List (String × String)) :
    lookupFile ((q, c) :: l) p = if q = p then some c else lookupFile l p := rfl

theorem lookupFile_erase (l : List (String × String)) (k p : String) :
    lookupFile (eraseFile l k) p = if p = k then none else lookupFile l p := by
  induction l with
  | nil => simp [eraseFile, lookupFile]
  | cons e rest ih =>
    obtain ⟨q, c⟩ := e
    simp only [eraseFile]
    by_cases hqk : q = k
    · simp only [if_pos hqk, ih, lookupFile]
      by_cases hpk : p = k
      · simp [hpk]
      · have hqp : ¬ q = p := by
          rw [hqk]
          exact fun h => hpk h.symm
        simp [hpk, hqp]
    · simp only [if_neg hqk, lookupFile]
      by_cases hqp : q = p
      · have hpk : ¬ p = k := by
          rw [← hqp]
          exact hqk
        simp [hqp, hpk]
      · simp [hqp, ih]

theorem lookupFile_write (fs : FS) (k c p : String) :
    lookupFile (writeFile fs k c).files p = if k = p then some c else lookupFile fs.files p := by
  simp only [writeFile, lookupFile]
  by_cases h : k = p
  · simp [h]
  · have h2 : ¬ p = k := fun hh => h hh.symm
    simp [h, lookupFile_erase, h2]

theorem lookupFile_none_of_all_not_under (dir : String) (l : List (String × String)) (p : String)
    (hall : ∀ e ∈ l, underDir dir e.1 = false) (hp : underDir dir p = true) :
    lookupFile l p = none := by
  induction l with
  | nil => rfl
  | cons e rest ih =>
    obtain ⟨q, c⟩ := e
    have hq : underDir dir q = false := hall (q, c) (List.mem_cons_self _ _)
    have hqp : ¬ q = p := by
      intro hh
      rw [hh, hp] at hq
      exact Bool.true_eq_false.mp hq
    simp only [lookupFile, if_neg hqp]
    exact ih fun e he => hall e (List.mem_cons_of_mem _ he)

theorem lookupFile_some_length (l : List (String × String)) (p c : String)
    (h : lookupFile l p = some c) : 1 ≤ l.length := by
  cases l with
  | nil => exact absurd h (by simp [lookupFile])
  | cons e rest => simp

/-! ## Supporting lemmas: paths -/

theorem joinPath_data (a b : String) : (joinPath a b).data = a.data ++ ['/'] ++ b.data := rfl

theorem data_append_slash (a : String) : (a ++ "/").data = a.data ++ ['/'] := rfl

theorem joinPath_assoc (a b c : String) :
    joinPath (joinPath a b) c = joinPath a (joinPath b c) := by
  apply String.ext
  simp [joinPath_data]

theorem joinPath_right_inj (a b c : String) (h : joinPath a b = joinPath a c) : b = c := by
  have hd := congrArg String.data h
  rw [joinPath_data, joinPath_data] at hd
  exact String.ext (List.append_cancel_left hd)

theorem underDir_join (dir rest : String) : underDir dir (joinPath dir rest) = true := by
  have : underDir dir (joinPath dir rest) = ((dir.data ++ ['/']).isPrefixOf
      ((dir.data ++ ['/']) ++ rest.data)) := rfl
  rw [this]
  simp only [ List.isPrefixOf_iff_prefix]
  exact List.prefix_append _ _

theorem drop_append_cons (l r : List Char) (c : Char) :
    (l ++ c :: r).drop (l.length + 1) = r := by
  induction l with
  | nil => simp
  | cons x xs ih => simp [ih]

theorem rel_join (base rest : String) :
    rel base (joinPath base rest) = Except.ok rest := by
  have hne : joinPath base rest ≠ base := by
    intro h
    have hlen := congrArg (fun s => s.data.length) h
    simp [joinPath_data] at hlen
  have hpre : ((base ++ "/").data.isPrefixOf (joinPath base rest).data) = true := by
    rw [data_append_slash]
    have : (joinPath base rest).data = (base.data ++ ['/']) ++ rest.data := by
      rw [joinPath_data]
    rw [this]
    rw [ List.isPrefixOf_iff_prefix]
    exact List.prefix_append _ _
  rw [rel, if_neg hne, if_pos (by exact_mod_cast hpre)]
  congr 1
  apply String.ext
  show (joinPath base rest).data.drop (base.length + 1) = rest.data
  have : (joinPath base rest).data = (base.data ++ ['/']) ++ rest.data := by
    rw [joinPath_data]
  rw [this]
  have hlen : base.length = base.data.length := rfl
  rw [hlen, show base.data.length + 1 = (base.data ++ ['/']).length by simp]
  exact List.drop_left _ _

/-! ## Supporting lemmas: slot paths -/

theorem slotPath_as_joinPath (pd name : String) (i : Nat) :
    slotPath (findingDirOf pd name) i = joinPath pd (relSlot name i) := by
  simp [slotPath, findingDirOf, relSlot, joinPath_assoc]

theorem rel_pd_slotPath (pd name : String) (i : Nat) :
    rel pd (slotPath (findingDirOf pd name) i) = Except.ok (relSlot name i) := by
  rw [slotPath_as_joinPath]
  exact rel_join _ _

theorem take_one_append (l r : List Char) (h : l ≠ []) : (l ++ r).take 1 = l.take 1 := by
  cases l with
  | nil => exact absurd rfl h
  | cons c cs => simp

theorem isAbs_joinPath (a b : String) (h : a.data ≠ []) : isAbs (joinPath a b) = isAbs a := by
  simp only [isAbs, joinPath_data]
  rw [List.append_assoc, take_one_append a.data _ h]

theorem isAbs_relSlot (name : String) (i : Nat) : isAbs (relSlot name i) = false := by
  rw [relSlot, isAbs_joinPath _ _ (by simp [joinPath_data]),
    isAbs_joinPath _ _ (by decide)]
  decide

theorem resolve_relSlot (pd name : String) (i : Nat) :
    resolve pd (relSlot name i) = slotPath (findingDirOf pd name) i := by
  rw [resolve, isAbs_relSlot, slotPath_as_joinPath]
  simp

theorem underDir_slotPath (fd : String) (i : Nat) : underDir fd (slotPath fd i) = true :=
  underDir_join _ _

theorem underDir_corpusPath (scd name : String) (i : Nat) :
    underDir scd (corpusPath scd name i) = true :=
  underDir_join _ _

/-! ## Supporting lemmas: the slot scan -/

theorem scanSlot_free (fs : FS) (fd src : String) (i fuel : Nat)
    (h : lookupFile fs.files (slotPath fd i) = none) :
    scanSlot fs fd src (fuel + 1) i = Except.ok (some i) := by
  simp [scanSlot, h]

theorem scanSlot_dup (fs : FS) (fd src : String) (i fuel : Nat) (c : String)
    (h1 : lookupFile fs.files (slotPath fd i) = some c)
    (h2 : lookupFile fs.files src = some c) :
    scanSlot fs fd src (fuel + 1) i = Except.ok none := by
  simp [scanSlot, h1, h2]

theorem scanSlot_step (fs : FS) (fd src : String) (i fuel : Nat) (c cn : String)
    (h1 : lookupFile fs.files (slotPath fd i) = some c)
    (h2 : lookupFile fs.files src = some cn)
    (hne : c ≠ cn) :
    scanSlot fs fd src (fuel + 1) i = scanSlot fs fd src fuel (i + 1) := by
  simp [scanSlot, h1, h2, hne]

theorem lookupFile_mem (l : List (String × String)) (p c : String)
    (h : lookupFile l p = some c) : (p, c) ∈ l := by
  induction l with
  | nil => exact absurd h (by simp [lookupFile])
  | cons e rest ih =>
    obtain ⟨q, d⟩ := e
    by_cases hq : q = p
    · subst hq
      rw [lookupFile_cons, if_pos rfl] at h
      cases h
      exact List.mem_cons_self _ _
    · rw [lookupFile_cons, if_neg hq] at h
      exact List.mem_cons_of_mem _ (ih h)

/-! ## Supporting lemmas: characterizing the store -/

theorem lookupFile_after_writes (l : List (String × String)) (slot seedP src bs : String)
    (hsrc : lookupFile l src = some bs) :
    lookupFile ((seedP, bs) :: eraseFile ((slot, bs) :: eraseFile l slot) seedP) src
      = some bs := by
  by_cases h1 : seedP = src
  · simp [lookupFile, h1]
  · have h1' : ¬ src = seedP := fun hh => h1 hh.symm
    simp only [lookupFile, if_neg h1, lookupFile_erase, if_neg h1']
    by_cases h2 : slot = src
    · simp [lookupFile, h2]
    · have h2' : ¬ src = slot := fun hh => h2 hh.symm
      simp [lookupFile, h2, lookupFile_erase, h2', hsrc]

/-- Shape of a successful non-duplicate store: when the scan chooses the
free slot `i` and the source file holds `bs`, `moveInputFile` copies the
bytes to the slot and the corpus, removes the source, rewrites the logs
against the slot path relative to `cwd`, and rewrites `InputFile` to the
slot path relative to the project directory. -/
theorem moveInputFile_fresh (f : Finding) (pd scd cwd bs rp : String) (fs : FS) (i : Nat)
    (hscan : scanSlot fs (findingDirOf pd f.Name) (resolve cwd f.InputFile)
      (fs.files.length + 1) 1 = Except.ok (some i))
    (hsrc : lookupFile fs.files (resolve cwd f.InputFile) = some bs)
    (hrel : rel cwd (slotPath (findingDirOf pd f.Name) i) = Except.ok rp) :
    moveInputFile f pd scd cwd fs = Except.ok
      ({ f with
          Logs := f.Logs.map fun line => goReplaceAll line f.InputFile rp
          seedPath := corpusPath scd f.Name i
          InputFile := relSlot f.Name i },
        { files := eraseFile ((corpusPath scd f.Name i, bs) ::
            eraseFile ((slotPath (findingDirOf pd f.Name) i, bs) ::
              eraseFile fs.files (slotPath (findingDirOf pd f.Name) i))
              (corpusPath scd f.Name i)) (resolve cwd f.InputFile),
          dirs := scd :: fs.dirs }) := by
  simp only [findingDirOf] at hscan hrel
  have hex : existsFile
      { files := (corpusPath scd f.Name i, bs) ::
          eraseFile ((slotPath (joinPath (joinPath pd nameFindingsDir) f.Name) i, bs) ::
            eraseFile fs.files (slotPath (joinPath (joinPath pd nameFindingsDir) f.Name) i))
            (corpusPath scd f.Name i), dirs := scd :: fs.dirs }
      (resolve cwd f.InputFile) = true := by
    simp only [existsFile, lookupFile_after_writes fs.files _ _ _ bs hsrc, Option.isSome_some]
  simp only [moveInputFile, hscan, hsrc, writeFile, mkdirAll, removeFile, hex, if_true,
    hrel]
  rw [show rel pd (slotPath (joinPath (joinPath pd nameFindingsDir) f.Name) i)
      = Except.ok (relSlot f.Name i) from rel_pd_slotPath pd f.Name i]
  rfl

/-- Shape of a duplicate store: when slot 1 already holds exactly the
bytes of the source file, `moveInputFile` succeeds and changes
nothing. -/
theorem moveInputFile_dup (f : Finding) (pd scd cwd bs : String) (fs : FS)
    (h1 : lookupFile fs.files (slotPath (findingDirOf pd f.Name) 1) = some bs)
    (h2 : lookupFile fs.files (resolve cwd f.InputFile) = some bs) :
    moveInputFile f pd scd cwd fs = Except.ok (f, fs) := by
  simp only [findingDirOf] at h1
  simp only [moveInputFile, scanSlot, h1, h2, if_pos rfl]
  rfl

/-- With a cleanly acquired and released lock, the guarded store returns
exactly the inner store's successful result (and attempted the
release). -/
theorem MoveInputFile_clean_ok (f : Finding) (pd scd cwd : String) (fs : FS)
    (v : Finding × FS)
    (h : moveInputFile f pd scd cwd (mkdirAll fs (findingDirOf pd f.Name)) = Except.ok v) :
    MoveInputFile f pd scd cwd none none fs = (Except.ok v, true) := by
  simp only [findingDirOf] at h
  simp only [MoveInputFile, h]

/-- A store repeated on the already-stored finding is a no-op up to the
(idempotent) directory creation: the finding is returned unchanged and
the files are untouched. -/
theorem MoveInputFile_dup_step (f : Finding) (pd scd bs : String) (fs : FS)
    (hslot : lookupFile fs.files (slotPath (findingDirOf pd f.Name) 1) = some bs)
    (hres : lookupFile fs.files (resolve pd f.InputFile) = some bs) :
    MoveInputFile f pd scd pd none none fs
      = (Except.ok (f, mkdirAll fs (findingDirOf pd f.Name)), true) := by
  apply MoveInputFile_clean_ok
  exact moveInputFile_dup f pd scd pd bs _ hslot hres

/-- C1: storing the same input bytes for the same finding any number of
times through the lock-guarded `MoveInputFile` is idempotent: the first
successful store rewrites `seedPath`/`InputFile`, leaves exactly one
slot file in the finding directory and exactly one corpus file, and
every repeated store returns the identical finding (identical rewrites)
with the identical files. -/
theorem c1_dedup_idempotent (f : Finding) (pd scd bs : String) (fs₀ : FS)
    (hsrc : lookupFile fs₀.files (resolve pd f.InputFile) = some bs)
    (hcleanF : ∀ e ∈ fs₀.files, underDir (findingDirOf pd f.Name) e.1 = false)
    (hcleanC : ∀ e ∈ fs₀.files, underDir scd e.1 = false)
    (hcorp : underDir (findingDirOf pd f.Name) (corpusPath scd f.Name 1) = false)
    (hslot : underDir scd (slotPath (findingDirOf pd f.Name) 1) = false) :
    ∃ f₁ fs₁,
      (MoveInputFile f pd scd pd none none fs₀).1 = Except.ok (f₁, fs₁) ∧
      f₁.seedPath = corpusPath scd f.Name 1 ∧
      f₁.InputFile = relSlot f.Name 1 ∧
      (∀ p, underDir (findingDirOf pd f.Name) p = true →
        (existsFile fs₁ p = true ↔ p = slotPath (findingDirOf pd f.Name) 1)) ∧
      (∀ p, underDir scd p = true →
        (existsFile fs₁ p = true ↔ p = corpusPath scd f.Name 1)) ∧
      (∀ n, ∃ fsn, iterStore pd scd pd n (f₁, fs₁) = Except.ok (f₁, fsn) ∧
        fsn.files = fs₁.files) := by
  have hsrcmem := lookupFile_mem _ _ _ hsrc
  have hsrcF : underDir (findingDirOf pd f.Name) (resolve pd f.InputFile) = false :=
    hcleanF _ hsrcmem
  have hsrcC : underDir scd (resolve pd f.InputFile) = false := hcleanC _ hsrcmem
  have hslot1F : underDir (findingDirOf pd f.Name)
      (slotPath (findingDirOf pd f.Name) 1) = true := underDir_slotPath _ _
  have hcorp1C : underDir scd (corpusPath scd f.Name 1) = true := underDir_corpusPath _ _ _
  have hslotfree : lookupFile fs₀.files (slotPath (findingDirOf pd f.Name) 1) = none :=
    lookupFile_none_of_all_not_under _ _ _ hcleanF hslot1F
  have hne_src_slot : ¬ resolve pd f.InputFile = slotPath (findingDirOf pd f.Name) 1 := by
    intro h
    rw [h, hslotfree] at hsrc
    exact Option.noConfusion hsrc
  have hne_slot_corp : ¬ slotPath (findingDirOf pd f.Name) 1 = corpusPath scd f.Name 1 := by
    intro h
    rw [← h, hslot1F] at hcorp
    exact Bool.noConfusion hcorp
  have hne_src_corp : ¬ resolve pd f.InputFile = corpusPath scd f.Name 1 := by
    intro h
    rw [h, hcorp1C] at hsrcC
    exact Bool.noConfusion hsrcC
  have hscan : scanSlot (mkdirAll fs₀ (findingDirOf pd f.Name)) (findingDirOf pd f.Name)
      (resolve pd f.InputFile)
      ((mkdirAll fs₀ (findingDirOf pd f.Name)).files.length + 1) 1 = Except.ok (some 1) :=
    scanSlot_free _ _ _ 1 _ hslotfree
  have hmaster := moveInputFile_fresh f pd scd pd bs (relSlot f.Name 1)
    (mkdirAll fs₀ (findingDirOf pd f.Name)) 1 hscan hsrc (rel_pd_slotPath pd f.Name 1)
  have hmv := MoveInputFile_clean_ok f pd scd pd fs₀ _ hmaster
  refine ⟨{ f with
      Logs := f.Logs.map fun line => goReplaceAll line f.InputFile (relSlot f.Name 1)
      seedPath := corpusPath scd f.Name 1
      InputFile := relSlot f.Name 1 },
    { files := eraseFile ((corpusPath scd f.Name 1, bs) ::
        eraseFile ((slotPath (findingDirOf pd f.Name) 1, bs) ::
          eraseFile fs₀.files (slotPath (findingDirOf pd f.Name) 1))
          (corpusPath scd f.Name 1)) (resolve pd f.InputFile),
      dirs := scd :: (mkdirAll fs₀ (findingDirOf pd f.Name)).dirs },
    ?_, rfl, rfl, ?_, ?_, ?_⟩
  · rw [hmv]
    rfl
  · -- exactly one slot file in the finding directory
    intro p hp
    have hpsrc : ¬ p = resolve pd f.InputFile := by
      intro h
      rw [h, hsrcF] at hp
      exact Bool.noConfusion hp
    have hpcorp : ¬ p = corpusPath scd f.Name 1 := by
      intro h
      rw [h, hcorp] at hp
      exact Bool.noConfusion hp
    constructor
    · intro hex
      by_contra hnp
      rw [existsFile] at hex
      rw [lookupFile_erase, if_neg hpsrc, lookupFile_cons,
        if_neg (fun hh => hpcorp hh.symm), lookupFile_erase, if_neg hpcorp,
        lookupFile_cons, if_neg (fun hh => hnp hh.symm), lookupFile_erase, if_neg hnp,
        lookupFile_none_of_all_not_under _ _ _ hcleanF hp] at hex
      exact Bool.noConfusion hex
    · intro hp1
      subst hp1
      rw [existsFile]
      rw [lookupFile_erase, if_neg (fun hh => hne_src_slot hh.symm), lookupFile_cons,
        if_neg (fun hh => hne_slot_corp hh.symm), lookupFile_erase, if_neg hne_slot_corp,
        lookupFile_cons, if_pos rfl]
      rfl
  · -- exactly one corpus file
    intro p hp
    have hpsrc : ¬ p = resolve pd f.InputFile := by
      intro h
      rw [h, hsrcC] at hp
      exact Bool.noConfusion hp
    have hpslot : ¬ p = slotPath (findingDirOf pd f.Name) 1 := by
      intro h
      rw [h, hslot] at hp
      exact Bool.noConfusion hp
    constructor
    · intro hex
      by_contra hnp
      rw [existsFile] at hex
      rw [lookupFile_erase, if_neg hpsrc, lookupFile_cons,
        if_neg (fun hh => hnp hh.symm), lookupFile_erase, if_neg hnp,
        lookupFile_cons, if_neg (fun hh => hpslot hh.symm), lookupFile_erase,
        if_neg hpslot, lookupFile_none_of_all_not_under _ _ _ hcleanC hp] at hex
      exact Bool.noConfusion hex
    · intro hp1
      subst hp1
      rw [existsFile]
      rw [lookupFile_erase, if_neg (fun hh => hne_src_corp hh.symm),
        lookupFile_cons, if_pos rfl]
      rfl
  · -- repeated stores are the identity on the finding and on the files
    have hlookS : lookupFile (eraseFile ((corpusPath scd f.Name 1, bs) ::
        eraseFile ((slotPath (findingDirOf pd f.Name) 1, bs) ::
          eraseFile fs₀.files (slotPath (findingDirOf pd f.Name) 1))
          (corpusPath scd f.Name 1)) (resolve pd f.InputFile))
        (slotPath (findingDirOf pd f.Name) 1) = some bs := by
      rw [lookupFile_erase, if_neg (fun hh => hne_src_slot hh.symm), lookupFile_cons,
        if_neg (fun hh => hne_slot_corp hh.symm), lookupFile_erase, if_neg hne_slot_corp,
        lookupFile_cons, if_pos rfl]
    have hstep : ∀ fs' : FS, fs'.files = eraseFile ((corpusPath scd f.Name 1, bs) ::
        eraseFile ((slotPath (findingDirOf pd f.Name) 1, bs) ::
          eraseFile fs₀.files (slotPath (findingDirOf pd f.Name) 1))
          (corpusPath scd f.Name 1)) (resolve pd f.InputFile) →
        MoveInputFile { f with
            Logs := f.Logs.map fun line => goReplaceAll line f.InputFile (relSlot f.Name 1)
            seedPath := corpusPath scd f.Name 1
            InputFile := relSlot f.Name 1 } pd scd pd none none fs'
          = (Except.ok ({ f with
              Logs := f.Logs.map fun line => goReplaceAll line f.InputFile (relSlot f.Name 1)
              seedPath := corpusPath scd f.Name 1
              InputFile := relSlot f.Name 1 },
            mkdirAll fs' (findingDirOf pd f.Name)), true) := by
      intro fs' hf
      apply MoveInputFile_dup_step _ pd scd bs fs'
      · show lookupFile fs'.files (slotPath (findingDirOf pd f.Name) 1) = some bs
        rw [hf]
        exact hlookS
      · show lookupFile fs'.files (resolve pd (relSlot f.Name 1)) = some bs
        rw [hf, resolve_relSlot]
        exact hlookS
    suffices h : ∀ n (fs' : FS), fs'.files = eraseFile ((corpusPath scd f.Name 1, bs) ::
        eraseFile ((slotPath (findingDirOf pd f.Name) 1, bs) ::
          eraseFile fs₀.files (slotPath (findingDirOf pd f.Name) 1))
          (corpusPath scd f.Name 1)) (resolve pd f.InputFile) →
        ∃ fsn, iterStore pd scd pd n ({ f with
            Logs := f.Logs.map fun line => goReplaceAll line f.InputFile (relSlot f.Name 1)
            seedPath := corpusPath scd f.Name 1
            InputFile := relSlot f.Name 1 }, fs') = Except.ok ({ f with
            Logs := f.Logs.map fun line => goReplaceAll line f.InputFile (relSlot f.Name 1)
            seedPath := corpusPath scd f.Name 1
            InputFile := relSlot f.Name 1 }, fsn) ∧
          fsn.files = eraseFile ((corpusPath scd f.Name 1, bs) ::
            eraseFile ((slotPath (findingDirOf pd f.Name) 1, bs) ::
              eraseFile fs₀.files (slotPath (findingDirOf pd f.Name) 1))
              (corpusPath scd f.Name 1)) (resolve pd f.InputFile) by
      intro n
      exact h n _ rfl
    intro n
    induction n with
    | zero =>
      intro fs' hf
      exact ⟨fs', rfl, hf⟩
    | succ n ih =>
      intro fs' hf
      simp only [iterStore, hstep fs' hf]
      exact ih _ hf

/-- Witness for C1 at the spec's concrete scenario: project `/p`,
finding `crash-abc`, source `/tmp/in1` holding `AAAA`. -/
theorem c1_dedup_idempotent_witness :
    ∃ f₁ fs₁,
      (MoveInputFile { Name := ("crash-abc"), InputFile := ("/tmp/in1") } ("/p") ("/corpus")
        ("/p") none none { files := [(("/tmp/in1"), ("AAAA"))], dirs := [] }).1
        = Except.ok (f₁, fs₁) ∧
      f₁.seedPath = corpusPath ("/corpus") ("crash-abc") 1 ∧
      f₁.InputFile = relSlot ("crash-abc") 1 ∧
      (∀ p, underDir (findingDirOf ("/p") ("crash-abc")) p = true →
        (existsFile fs₁ p = true ↔ p = slotPath (findingDirOf ("/p") ("crash-abc")) 1)) ∧
      (∀ p, underDir ("/corpus") p = true →
        (existsFile fs₁ p = true ↔ p = corpusPath ("/corpus") ("crash-abc") 1)) ∧
      (∀ n, ∃ fsn, iterStore ("/p") ("/corpus") ("/p") n (f₁, fs₁)
          = Except.ok (f₁, fsn) ∧ fsn.files = fs₁.files) :=
  c1_dedup_idempotent { Name := ("crash-abc"), InputFile := ("/tmp/in1") } ("/p") ("/corpus")
    ("AAAA") { files := [(("/tmp/in1"), ("AAAA"))], dirs := [] }
    (by decide) (by decide) (by decide) (by decide) (by decide)

/-- Lookup of the chosen slot after a store: it holds the stored bytes. -/
theorem lookup_store_slot (L : List (String × String)) (slot seedP src b : String)
    (h1 : ¬ slot = src) (h2 : ¬ slot = seedP) :
    lookupFile (eraseFile ((seedP, b) :: eraseFile ((slot, b) :: eraseFile L slot) seedP) src)
      slot = some b := by
  rw [lookupFile_erase, if_neg h1, lookupFile_cons, if_neg (fun hh => h2 hh.symm),
    lookupFile_erase, if_neg h2, lookupFile_cons, if_pos rfl]

/-- Lookup of the corpus entry after a store: it holds the stored bytes. -/
theorem lookup_store_seed (L : List (String × String)) (slot seedP src b : String)
    (h : ¬ seedP = src) :
    lookupFile (eraseFile ((seedP, b) :: eraseFile ((slot, b) :: eraseFile L slot) seedP) src)
      seedP = some b := by
  rw [lookupFile_erase, if_neg h, lookupFile_cons, if_pos rfl]

/-- Any path other than the slot, the corpus entry and the removed source
is untouched by a store. -/
theorem lookup_store_other (L : List (String × String)) (slot seedP src b p : String)
    (h1 : ¬ p = src) (h2 : ¬ p = slot) (h3 : ¬ p = seedP) :
    lookupFile (eraseFile ((seedP, b) :: eraseFile ((slot, b) :: eraseFile L slot) seedP) src)
      p = lookupFile L p := by
  rw [lookupFile_erase, if_neg h1, lookupFile_cons, if_neg (fun hh => h3 hh.symm),
    lookupFile_erase, if_neg h3, lookupFile_cons, if_neg (fun hh => h2 hh.symm),
    lookupFile_erase, if_neg h2]

theorem append_right_ne (a b c : String) (h : b ≠ c) : a ++ b ≠ a ++ c := by
  intro hh
  have hd := congrArg String.data hh
  rw [String.data_append, String.data_append] at hd
  exact h (String.ext (List.append_cancel_left hd))

/-- The duplicate branch taken for an arbitrary slot: when the scan
reports a duplicate, the store succeeds without touching anything. -/
theorem moveInputFile_dup_scan (f : Finding) (pd scd cwd : String) (fs : FS)
    (hscan : scanSlot fs (findingDirOf pd f.Name) (resolve cwd f.InputFile)
      (fs.files.length + 1) 1 = Except.ok none) :
    moveInputFile f pd scd cwd fs = Except.ok (f, fs) := by
  simp only [findingDirOf] at hscan
  simp only [moveInputFile, hscan]

/-! ## strings.ReplaceAll leaves lines without the pattern unchanged -/

theorem replaceCore_of_not_infix (pat rep : List Char) (l : List Char)
    (h : ¬ pat <:+: l) : replaceCore pat rep l = l := by
  revert h
  induction l with
  | nil =>
    intro h
    simp [replaceCore]
  | cons c rest ih =>
    intro h
    have hpre : pat.isPrefixOf (c :: rest) = false := by
      cases hp : pat.isPrefixOf (c :: rest) with
      | false => rfl
      | true =>
        exfalso
        obtain ⟨t, ht⟩ := List.isPrefixOf_iff_prefix.mp hp
        exact h ⟨[], t, by simpa using ht⟩
    have hrest : ¬ pat <:+: rest := fun hinf => h (List.infix_cons hinf)
    simp only [replaceCore, hpre, Bool.false_eq_true, if_false]
    rw [ih hrest]

theorem goReplaceAll_of_not_infix (s pat rep : String) (h : ¬ pat.data <:+: s.data) :
    goReplaceAll s pat rep = s := by
  have hpat : ¬ pat.data = [] := by
    intro hp
    rw [hp] at h
    exact h List.nil_infix
  rw [goReplaceAll, if_neg hpat, replaceCore_of_not_infix pat.data rep.data s.data h]

/-- C2 (amended): a store that finds the new input to be a byte-for-byte
duplicate of a slot's contents succeeds and leaves the filesystem
entirely unchanged — the finding directory keeps its slots, no corpus
entry is added, and the original source input file is left in place
(it is not deleted). -/
theorem c2_duplicate_store (f : Finding) (pd scd cwd bs : String) (fs : FS)
    (hslot : lookupFile fs.files (slotPath (findingDirOf pd f.Name) 1) = some bs)
    (hsrc : lookupFile fs.files (resolve cwd f.InputFile) = some bs) :
    moveInputFile f pd scd cwd fs = Except.ok (f, fs) ∧
    existsFile fs (resolve cwd f.InputFile) = true := by
  refine ⟨moveInputFile_dup f pd scd cwd bs fs hslot hsrc, ?_⟩
  rw [existsFile, hsrc]
  rfl

/-- Counterexample to C2 as stated: a duplicate store of `/tmp/in2`
(bytes `AAAA`, equal to slot 1) succeeds but does NOT delete `/tmp/in2`:
the filesystem is returned unchanged, the source file still exists. -/
theorem c2_counterexample :
    moveInputFile { Name := ("crash-abc"), InputFile := ("/tmp/in2") } ("/p") ("/corpus")
      ("/p")
      { files := [(("/p/.cifuzz-findings/crash-abc/crashing-input-1"), ("AAAA")),
          (("/tmp/in2"), ("AAAA"))], dirs := [] }
      = Except.ok ({ Name := ("crash-abc"), InputFile := ("/tmp/in2") },
        { files := [(("/p/.cifuzz-findings/crash-abc/crashing-input-1"), ("AAAA")),
            (("/tmp/in2"), ("AAAA"))], dirs := [] }) ∧
    existsFile
      { files := [(("/p/.cifuzz-findings/crash-abc/crashing-input-1"), ("AAAA")),
          (("/tmp/in2"), ("AAAA"))], dirs := [] } ("/tmp/in2") = true := by
  exact ⟨rfl, rfl⟩

/-- Witness for the amended C2 at the spec's concrete scenario. -/
theorem c2_duplicate_store_witness :
    moveInputFile { Name := ("crash-abc"), InputFile := ("/tmp/in2") } ("/p") ("/corpus")
      ("/p")
      { files := [(("/p/.cifuzz-findings/crash-abc/crashing-input-1"), ("AAAA")),
          (("/tmp/in2"), ("AAAA"))], dirs := [] }
      = Except.ok ({ Name := ("crash-abc"), InputFile := ("/tmp/in2") },
        { files := [(("/p/.cifuzz-findings/crash-abc/crashing-input-1"), ("AAAA")),
            (("/tmp/in2"), ("AAAA"))], dirs := [] }) ∧
    existsFile
      { files := [(("/p/.cifuzz-findings/crash-abc/crashing-input-1"), ("AAAA")),
          (("/tmp/in2"), ("AAAA"))], dirs := [] } ("/tmp/in2") = true :=
  c2_duplicate_store { Name := ("crash-abc"), InputFile := ("/tmp/in2") } ("/p") ("/corpus")
    ("/p") ("AAAA") _ (by decide) (by decide)

/-- C4: in the lock-guarded store with the lock acquired, the release is
always attempted; an inner failure is returned to the caller regardless
of the release outcome; and a release failure after inner success is
returned. -/
theorem c4_lock_guard (f : Finding) (pd scd cwd : String) (unlockErr : Option Err) (fs : FS) :
    (MoveInputFile f pd scd cwd none unlockErr fs).2 = true ∧
    (∀ e, moveInputFile f pd scd cwd (mkdirAll fs (findingDirOf pd f.Name))
        = Except.error e →
      (MoveInputFile f pd scd cwd none unlockErr fs).1 = Except.error e) ∧
    (∀ v ue, moveInputFile f pd scd cwd (mkdirAll fs (findingDirOf pd f.Name))
        = Except.ok v → unlockErr = some ue →
      (MoveInputFile f pd scd cwd none unlockErr fs).1 = Except.error ue) := by
  refine ⟨?_, ?_, ?_⟩
  · cases hmv : moveInputFile f pd scd cwd
        (mkdirAll fs (joinPath (joinPath pd nameFindingsDir) f.Name)) with
    | ok v => simp [MoveInputFile, hmv]
    | error e => simp [MoveInputFile, hmv]
  · intro e he
    simp only [findingDirOf] at he
    simp [MoveInputFile, he]
  · intro v ue hv hue
    simp only [findingDirOf] at hv
    simp [MoveInputFile, hv, hue]

/-- Witness for C4: with an empty filesystem the inner operation fails
reading the source, and that error is returned even though the unlock
also fails; the release was attempted. -/
theorem c4_lock_guard_witness :
    (MoveInputFile { Name := ("x"), InputFile := ("/tmp/a") } ("/p") ("/c") ("/p") none
      (some (Err.lockFailure ("u"))) { files := [], dirs := [] }).1
      = Except.error (Err.ioError ("copy: source file does not exist")) ∧
    (MoveInputFile { Name := ("x"), InputFile := ("/tmp/a") } ("/p") ("/c") ("/p") none
      (some (Err.lockFailure ("u"))) { files := [], dirs := [] }).2 = true :=
  ⟨(c4_lock_guard { Name := ("x"), InputFile := ("/tmp/a") } ("/p") ("/c") ("/p")
      (some (Err.lockFailure ("u"))) { files := [], dirs := [] }).2.1
      (Err.ioError ("copy: source file does not exist")) rfl,
    (c4_lock_guard { Name := ("x"), InputFile := ("/tmp/a") } ("/p") ("/c") ("/p")
      (some (Err.lockFailure ("u"))) { files := [], dirs := [] }).1⟩

/-- C10: the nil-receiver getters are safe and return the empty string. -/
theorem c10_nil_getters : GetDetails none = "" ∧ GetSeedPath none = "" := ⟨rfl, rfl⟩

/-- C6: after a successful non-duplicate store each log line has every
occurrence of the original source path replaced by the slot path
relative to the working directory (this is what `goReplaceAll`, the
embedding of `strings.ReplaceAll`, performs), and a line that does not
contain the source path as a substring is unchanged. -/
theorem c6_log_rewrite (f : Finding) (pd scd cwd bs rp : String) (fs : FS) (i : Nat)
    (hscan : scanSlot fs (findingDirOf pd f.Name) (resolve cwd f.InputFile)
      (fs.files.length + 1) 1 = Except.ok (some i))
    (hsrc : lookupFile fs.files (resolve cwd f.InputFile) = some bs)
    (hrel : rel cwd (slotPath (findingDirOf pd f.Name) i) = Except.ok rp) :
    ∃ f' fs', moveInputFile f pd scd cwd fs = Except.ok (f', fs') ∧
      f'.Logs = f.Logs.map (fun line => goReplaceAll line f.InputFile rp) ∧
      (∀ line, ¬ f.InputFile.data <:+: line.data → goReplaceAll line f.InputFile rp = line) := by
  refine ⟨_, _, moveInputFile_fresh f pd scd cwd bs rp fs i hscan hsrc hrel, rfl, ?_⟩
  intro line hline
  exact goReplaceAll_of_not_infix line f.InputFile rp hline

/-- Witness for C6 at the concrete scenario. -/
theorem c6_log_rewrite_witness :
    ∃ f' fs', moveInputFile
        { Name := ("crash-abc"), InputFile := ("/tmp/in1"),
          Logs := [("crash at /tmp/in1 boom"), ("no path here")] }
        ("/p") ("/corpus") ("/p") { files := [(("/tmp/in1"), ("AAAA"))], dirs := [] }
      = Except.ok (f', fs') ∧
      f'.Logs = [("crash at /tmp/in1 boom"), ("no path here")].map
        (fun line => goReplaceAll line ("/tmp/in1")
          (relSlot ("crash-abc") 1)) ∧
      (∀ line, ¬ ("/tmp/in1" : String).data <:+: line.data →
        goReplaceAll line ("/tmp/in1") (relSlot ("crash-abc") 1) = line) :=
  c6_log_rewrite
    { Name := ("crash-abc"), InputFile := ("/tmp/in1"),
      Logs := [("crash at /tmp/in1 boom"), ("no path here")] }
    ("/p") ("/corpus") ("/p") ("AAAA") (relSlot ("crash-abc") 1)
    { files := [(("/tmp/in1"), ("AAAA"))], dirs := [] } 1
    rfl (by decide) (rel_pd_slotPath ("/p") ("crash-abc") 1)

/-- C7: after a successful non-duplicate store the finding's `InputFile`
equals the chosen slot's path relative to the project root, i.e.
`.cifuzz-findings/<name>/crashing-input-<i>`, which is exactly what
`filepath.Rel(projectDir, path)` produces here. -/
theorem c7_inputFile_rewrite (f : Finding) (pd scd cwd bs rp : String) (fs : FS) (i : Nat)
    (hscan : scanSlot fs (findingDirOf pd f.Name) (resolve cwd f.InputFile)
      (fs.files.length + 1) 1 = Except.ok (some i))
    (hsrc : lookupFile fs.files (resolve cwd f.InputFile) = some bs)
    (hrel : rel cwd (slotPath (findingDirOf pd f.Name) i) = Except.ok rp) :
    ∃ f' fs', moveInputFile f pd scd cwd fs = Except.ok (f', fs') ∧
      f'.InputFile = relSlot f.Name i ∧
      relSlot f.Name i
        = joinPath (joinPath nameFindingsDir f.Name) (nameCrashingInput ++ "-" ++ toString i) ∧
      rel pd (slotPath (findingDirOf pd f.Name) i) = Except.ok (relSlot f.Name i) :=
  ⟨_, _, moveInputFile_fresh f pd scd cwd bs rp fs i hscan hsrc hrel, rfl, rfl,
    rel_pd_slotPath pd f.Name i⟩

/-- Witness for C7 at the concrete scenario. -/
theorem c7_inputFile_rewrite_witness :
    ∃ f' fs', moveInputFile { Name := ("crash-abc"), InputFile := ("/tmp/in1") }
        ("/p") ("/corpus") ("/p") { files := [(("/tmp/in1"), ("AAAA"))], dirs := [] }
      = Except.ok (f', fs') ∧
      f'.InputFile = relSlot ("crash-abc") 1 ∧
      relSlot ("crash-abc") 1 = joinPath (joinPath nameFindingsDir ("crash-abc"))
        (nameCrashingInput ++ "-" ++ toString 1) ∧
      rel ("/p") (slotPath (findingDirOf ("/p") ("crash-abc")) 1)
        = Except.ok (relSlot ("crash-abc") 1) :=
  c7_inputFile_rewrite { Name := ("crash-abc"), InputFile := ("/tmp/in1") } ("/p") ("/corpus")
    ("/p") ("AAAA") (relSlot ("crash-abc") 1)
    { files := [(("/tmp/in1"), ("AAAA"))], dirs := [] } 1
    rfl (by decide) (rel_pd_slotPath ("/p") ("crash-abc") 1)

/-- C3: saving a finding succeeds when no record with its name exists,
and a second save of any finding sharing the name fails with the
distinguishable AlreadyExists error kind while the first record's
persisted JSON is left intact. -/
theorem c3_save_unique (f g : Finding) (pd : String) (fs : FS)
    (hname : g.Name = f.Name)
    (h0 : existsFile fs (joinPath (findingDirOf pd f.Name) nameJsonFile) = false) :
    ∃ fs₁, Save f pd fs = Except.ok fs₁ ∧
      (∃ msg, Save g pd fs₁ = Except.error (Err.alreadyExists msg)) ∧
      lookupFile fs₁.files (joinPath (findingDirOf pd f.Name) nameJsonFile)
        = some (renderFinding f) := by
  simp only [findingDirOf] at h0
  have h0' : existsFile (mkdirAll fs (joinPath (joinPath pd nameFindingsDir) f.Name))
      (joinPath (joinPath (joinPath pd nameFindingsDir) f.Name) nameJsonFile) = false := h0
  have hjson : lookupFile (writeFile (mkdirAll fs (joinPath (joinPath pd nameFindingsDir) f.Name))
      (joinPath (joinPath (joinPath pd nameFindingsDir) f.Name) nameJsonFile)
      (renderFinding f)).files
      (joinPath (joinPath (joinPath pd nameFindingsDir) f.Name) nameJsonFile)
      = some (renderFinding f) := by
    rw [lookupFile_write, if_pos rfl]
  have hsave1 : Save f pd fs = Except.ok (writeFile
      (mkdirAll fs (joinPath (joinPath pd nameFindingsDir) f.Name))
      (joinPath (joinPath (joinPath pd nameFindingsDir) f.Name) nameJsonFile)
      (renderFinding f)) := by
    simp only [Save, h0', Bool.false_eq_true, if_false]
  refine ⟨_, hsave1, ⟨("Finding " ++ g.Name ++ " already exists"), ?_⟩, hjson⟩
  · have hex2 : existsFile (mkdirAll (writeFile
        (mkdirAll fs (joinPath (joinPath pd nameFindingsDir) f.Name))
        (joinPath (joinPath (joinPath pd nameFindingsDir) f.Name) nameJsonFile)
        (renderFinding f)) (joinPath (joinPath pd nameFindingsDir) g.Name))
        (joinPath (joinPath (joinPath pd nameFindingsDir) g.Name) nameJsonFile) = true := by
      rw [hname]
      show (lookupFile (writeFile
          (mkdirAll fs (joinPath (joinPath pd nameFindingsDir) f.Name))
          (joinPath (joinPath (joinPath pd nameFindingsDir) f.Name) nameJsonFile)
          (renderFinding f)).files
          (joinPath (joinPath (joinPath pd nameFindingsDir) f.Name) nameJsonFile)).isSome = true
      rw [hjson]
      rfl
    simp only [Save, hex2, if_true]

/-- Witness for C3: saving `crash-abc` twice into an empty project. -/
theorem c3_save_unique_witness :
    ∃ fs₁, Save { Name := ("crash-abc") } ("/p") { files := [], dirs := [] }
        = Except.ok fs₁ ∧
      (∃ msg, Save { Name := ("crash-abc"), Details := ("other") } ("/p") fs₁
        = Except.error (Err.alreadyExists msg)) ∧
      lookupFile fs₁.files (joinPath (findingDirOf ("/p") ("crash-abc")) nameJsonFile)
        = some (renderFinding { Name := ("crash-abc") }) :=
  c3_save_unique { Name := ("crash-abc") } { Name := ("crash-abc"), Details := ("other") }
    ("/p") { files := [], dirs := [] } rfl (by decide)

theorem joinPath_ne_of_ne (a b c : String) (h : b ≠ c) : joinPath a b ≠ joinPath a c :=
  fun hh => h (joinPath_right_inj a b c hh)

/-- Paths on opposite sides of a directory membership test differ. -/
theorem ne_of_underDir_mismatch (d p q : String)
    (hp : underDir d p = true) (hq : underDir d q = false) : ¬ p = q := by
  intro h
  rw [h, hq] at hp
  exact Bool.noConfusion hp

/-- A scan that sees different bytes in slot 1 and a free slot 2 picks
slot 2. -/
theorem scanSlot_two (fs : FS) (fd src : String) (c₁ c₂ : String)
    (h1 : lookupFile fs.files (slotPath fd 1) = some c₁)
    (h2 : lookupFile fs.files src = some c₂)
    (hne : c₁ ≠ c₂)
    (h3 : lookupFile fs.files (slotPath fd 2) = none) :
    scanSlot fs fd src (fs.files.length + 1) 1 = Except.ok (some 2) := by
  have hpos : 1 ≤ fs.files.length := lookupFile_some_length _ _ _ h1
  have hlen : fs.files.length = (fs.files.length - 1) + 1 := by omega
  rw [scanSlot_step fs fd src 1 fs.files.length c₁ c₂ h1 h2 hne, hlen]
  exact scanSlot_free _ _ _ 2 _ h3

/-- First store into a clean finding directory, through the guard: the
input lands in slot 1 and in corpus entry `<name>-1`. -/
theorem MoveInputFile_first_slot (f : Finding) (pd scd bs : String) (fs₀ : FS)
    (h1 : lookupFile fs₀.files (slotPath (findingDirOf pd f.Name) 1) = none)
    (h2 : lookupFile fs₀.files (resolve pd f.InputFile) = some bs) :
    MoveInputFile f pd scd pd none none fs₀ = (Except.ok
      ({ f with
          Logs := f.Logs.map fun line => goReplaceAll line f.InputFile (relSlot f.Name 1)
          seedPath := corpusPath scd f.Name 1
          InputFile := relSlot f.Name 1 },
        { files := eraseFile ((corpusPath scd f.Name 1, bs) ::
            eraseFile ((slotPath (findingDirOf pd f.Name) 1, bs) ::
              eraseFile fs₀.files (slotPath (findingDirOf pd f.Name) 1))
              (corpusPath scd f.Name 1)) (resolve pd f.InputFile),
          dirs := scd :: findingDirOf pd f.Name :: fs₀.dirs }), true) := by
  apply MoveInputFile_clean_ok
  have hscan : scanSlot (mkdirAll fs₀ (findingDirOf pd f.Name)) (findingDirOf pd f.Name)
      (resolve pd f.InputFile)
      ((mkdirAll fs₀ (findingDirOf pd f.Name)).files.length + 1) 1 = Except.ok (some 1) :=
    scanSlot_free _ _ _ 1 _ h1
  exact moveInputFile_fresh f pd scd pd bs (relSlot f.Name 1) _ 1 hscan h2
    (rel_pd_slotPath pd f.Name 1)

/-- Second store of different bytes, through the guard: the input lands
in slot 2 and in corpus entry `<name>-2`. -/
theorem MoveInputFile_second_slot (g : Finding) (pd scd bs₁ bs₂ : String) (fs₁ : FS)
    (h1 : lookupFile fs₁.files (slotPath (findingDirOf pd g.Name) 1) = some bs₁)
    (h2 : lookupFile fs₁.files (resolve pd g.InputFile) = some bs₂)
    (hne : bs₁ ≠ bs₂)
    (h3 : lookupFile fs₁.files (slotPath (findingDirOf pd g.Name) 2) = none) :
    MoveInputFile g pd scd pd none none fs₁ = (Except.ok
      ({ g with
          Logs := g.Logs.map fun line => goReplaceAll line g.InputFile (relSlot g.Name 2)
          seedPath := corpusPath scd g.Name 2
          InputFile := relSlot g.Name 2 },
        { files := eraseFile ((corpusPath scd g.Name 2, bs₂) ::
            eraseFile ((slotPath (findingDirOf pd g.Name) 2, bs₂) ::
              eraseFile fs₁.files (slotPath (findingDirOf pd g.Name) 2))
              (corpusPath scd g.Name 2)) (resolve pd g.InputFile),
          dirs := scd :: findingDirOf pd g.Name :: fs₁.dirs }), true) := by
  apply MoveInputFile_clean_ok
  have hscan : scanSlot (mkdirAll fs₁ (findingDirOf pd g.Name)) (findingDirOf pd g.Name)
      (resolve pd g.InputFile)
      ((mkdirAll fs₁ (findingDirOf pd g.Name)).files.length + 1) 1 = Except.ok (some 2) :=
    scanSlot_two _ _ _ bs₁ bs₂ h1 h2 hne h3
  exact moveInputFile_fresh g pd scd pd bs₂ (relSlot g.Name 2) _ 2 hscan h2
    (rel_pd_slotPath pd g.Name 2)

/-- C5: storing two different byte sequences for the same finding yields
slot 1 then slot 2 (indices assigned from 1, increasing), both slots are
retained with their own bytes, and each is referenced by its own
distinct corpus entry `<name>-<i>`. -/
theorem c5_distinct_inputs (f g : Finding) (pd scd bs₁ bs₂ : String) (fs₀ : FS)
    (hg : g.Name = f.Name)
    (hsrc1 : lookupFile fs₀.files (resolve pd f.InputFile) = some bs₁)
    (hsrc2 : lookupFile fs₀.files (resolve pd g.InputFile) = some bs₂)
    (hbs : bs₁ ≠ bs₂)
    (hcleanF : ∀ e ∈ fs₀.files, underDir (findingDirOf pd f.Name) e.1 = false)
    (hcleanC : ∀ e ∈ fs₀.files, underDir scd e.1 = false)
    (hcorp1 : underDir (findingDirOf pd f.Name) (corpusPath scd f.Name 1) = false)
    (hcorp2 : underDir (findingDirOf pd f.Name) (corpusPath scd f.Name 2) = false)
    (hslot2 : underDir scd (slotPath (findingDirOf pd f.Name) 2) = false) :
    ∃ f₁ fs₁ f₂ fs₂,
      (MoveInputFile f pd scd pd none none fs₀).1 = Except.ok (f₁, fs₁) ∧
      (MoveInputFile g pd scd pd none none fs₁).1 = Except.ok (f₂, fs₂) ∧
      lookupFile fs₂.files (slotPath (findingDirOf pd f.Name) 1) = some bs₁ ∧
      lookupFile fs₂.files (slotPath (findingDirOf pd f.Name) 2) = some bs₂ ∧
      lookupFile fs₂.files (corpusPath scd f.Name 1) = some bs₁ ∧
      lookupFile fs₂.files (corpusPath scd f.Name 2) = some bs₂ ∧
      slotPath (findingDirOf pd f.Name) 1 ≠ slotPath (findingDirOf pd f.Name) 2 ∧
      corpusPath scd f.Name 1 ≠ corpusPath scd f.Name 2 ∧
      f₁.seedPath = corpusPath scd f.Name 1 ∧
      f₂.seedPath = corpusPath scd f.Name 2 ∧
      f₁.InputFile = relSlot f.Name 1 ∧
      f₂.InputFile = relSlot f.Name 2 := by
  have hr1mem := lookupFile_mem _ _ _ hsrc1
  have hr2mem := lookupFile_mem _ _ _ hsrc2
  have hr1F := hcleanF _ hr1mem
  have hr1C := hcleanC _ hr1mem
  have hr2F := hcleanF _ hr2mem
  have hr2C := hcleanC _ hr2mem
  have hs1F : underDir (findingDirOf pd f.Name) (slotPath (findingDirOf pd f.Name) 1) = true :=
    underDir_slotPath _ _
  have hs2F : underDir (findingDirOf pd f.Name) (slotPath (findingDirOf pd f.Name) 2) = true :=
    underDir_slotPath _ _
  have hc1C : underDir scd (corpusPath scd f.Name 1) = true := underDir_corpusPath _ _ _
  have hc2C : underDir scd (corpusPath scd f.Name 2) = true := underDir_corpusPath _ _ _
  have hs1free : lookupFile fs₀.files (slotPath (findingDirOf pd f.Name) 1) = none :=
    lookupFile_none_of_all_not_under _ _ _ hcleanF hs1F
  have hs2free : lookupFile fs₀.files (slotPath (findingDirOf pd f.Name) 2) = none :=
    lookupFile_none_of_all_not_under _ _ _ hcleanF hs2F
  have hne_s1_r1 := ne_of_underDir_mismatch _ _ _ hs1F hr1F
  have hne_s1_r2 := ne_of_underDir_mismatch _ _ _ hs1F hr2F
  have hne_s2_r1 := ne_of_underDir_mismatch _ _ _ hs2F hr1F
  have hne_s2_r2 := ne_of_underDir_mismatch _ _ _ hs2F hr2F
  have hne_s1_c1 := ne_of_underDir_mismatch _ _ _ hs1F hcorp1
  have hne_s1_c2 := ne_of_underDir_mismatch _ _ _ hs1F hcorp2
  have hne_s2_c1 := ne_of_underDir_mismatch _ _ _ hs2F hcorp1
  have hne_s2_c2 := ne_of_underDir_mismatch _ _ _ hs2F hcorp2
  have hne_c1_r1 := ne_of_underDir_mismatch _ _ _ hc1C hr1C
  have hne_c1_r2 := ne_of_underDir_mismatch _ _ _ hc1C hr2C
  have hne_c2_r2 := ne_of_underDir_mismatch _ _ _ hc2C hr2C
  have hne_c1_s2 := ne_of_underDir_mismatch _ _ _ hc1C hslot2
  have hne_r2_r1 : ¬ resolve pd g.InputFile = resolve pd f.InputFile := by
    intro h
    rw [h, hsrc1] at hsrc2
    exact hbs (Option.some.inj hsrc2)
  have hne_s1_s2 : slotPath (findingDirOf pd f.Name) 1 ≠ slotPath (findingDirOf pd f.Name) 2 :=
    joinPath_ne_of_ne _ _ _ (append_right_ne (nameCrashingInput ++ "-") _ _ (by decide))
  have hne_c1_c2 : corpusPath scd f.Name 1 ≠ corpusPath scd f.Name 2 :=
    joinPath_ne_of_ne _ _ _ (append_right_ne (f.Name ++ "-") _ _ (by decide))
  have hmv1 := MoveInputFile_first_slot f pd scd bs₁ fs₀ hs1free hsrc1
  -- facts about the filesystem after the first store
  have hA1 : lookupFile (eraseFile ((corpusPath scd f.Name 1, bs₁) ::
      eraseFile ((slotPath (findingDirOf pd f.Name) 1, bs₁) ::
        eraseFile fs₀.files (slotPath (findingDirOf pd f.Name) 1))
        (corpusPath scd f.Name 1)) (resolve pd f.InputFile))
      (slotPath (findingDirOf pd g.Name) 1) = some bs₁ := by
    rw [hg]
    exact lookup_store_slot _ _ _ _ _ hne_s1_r1 hne_s1_c1
  have hA2 : lookupFile (eraseFile ((corpusPath scd f.Name 1, bs₁) ::
      eraseFile ((slotPath (findingDirOf pd f.Name) 1, bs₁) ::
        eraseFile fs₀.files (slotPath (findingDirOf pd f.Name) 1))
        (corpusPath scd f.Name 1)) (resolve pd f.InputFile))
      (corpusPath scd f.Name 1) = some bs₁ :=
    lookup_store_seed _ _ _ _ _ hne_c1_r1
  have hA3 : lookupFile (eraseFile ((corpusPath scd f.Name 1, bs₁) ::
      eraseFile ((slotPath (findingDirOf pd f.Name) 1, bs₁) ::
        eraseFile fs₀.files (slotPath (findingDirOf pd f.Name) 1))
        (corpusPath scd f.Name 1)) (resolve pd f.InputFile))
      (resolve pd g.InputFile) = some bs₂ := by
    rw [lookup_store_other _ _ _ _ _ _ hne_r2_r1
      (fun h => hne_s1_r2 h.symm) (fun h => hne_c1_r2 h.symm)]
    exact hsrc2
  have hA4 : lookupFile (eraseFile ((corpusPath scd f.Name 1, bs₁) ::
      eraseFile ((slotPath (findingDirOf pd f.Name) 1, bs₁) ::
        eraseFile fs₀.files (slotPath (findingDirOf pd f.Name) 1))
        (corpusPath scd f.Name 1)) (resolve pd f.InputFile))
      (slotPath (findingDirOf pd g.Name) 2) = none := by
    rw [hg]
    rw [lookup_store_other _ _ _ _ _ _ (fun h => hne_s2_r1 h)
      (fun h => hne_s1_s2 h.symm) (fun h => hne_s2_c1 h)]
    exact hs2free
  have hmv2 := MoveInputFile_second_slot g pd scd bs₁ bs₂
    { files := eraseFile ((corpusPath scd f.Name 1, bs₁) ::
        eraseFile ((slotPath (findingDirOf pd f.Name) 1, bs₁) ::
          eraseFile fs₀.files (slotPath (findingDirOf pd f.Name) 1))
          (corpusPath scd f.Name 1)) (resolve pd f.InputFile),
      dirs := scd :: findingDirOf pd f.Name :: fs₀.dirs }
    hA1 hA3 hbs hA4
  refine ⟨{ f with
      Logs := f.Logs.map fun line => goReplaceAll line f.InputFile (relSlot f.Name 1)
      seedPath := corpusPath scd f.Name 1
      InputFile := relSlot f.Name 1 },
    { files := eraseFile ((corpusPath scd f.Name 1, bs₁) ::
        eraseFile ((slotPath (findingDirOf pd f.Name) 1, bs₁) ::
          eraseFile fs₀.files (slotPath (findingDirOf pd f.Name) 1))
          (corpusPath scd f.Name 1)) (resolve pd f.InputFile),
      dirs := scd :: findingDirOf pd f.Name :: fs₀.dirs },
    { g with
      Logs := g.Logs.map fun line => goReplaceAll line g.InputFile (relSlot g.Name 2)
      seedPath := corpusPath scd g.Name 2
      InputFile := relSlot g.Name 2 },
    { files := eraseFile ((corpusPath scd g.Name 2, bs₂) ::
        eraseFile ((slotPath (findingDirOf pd g.Name) 2, bs₂) ::
          eraseFile (eraseFile ((corpusPath scd f.Name 1, bs₁) ::
            eraseFile ((slotPath (findingDirOf pd f.Name) 1, bs₁) ::
              eraseFile fs₀.files (slotPath (findingDirOf pd f.Name) 1))
              (corpusPath scd f.Name 1)) (resolve pd f.InputFile))
            (slotPath (findingDirOf pd g.Name) 2))
          (corpusPath scd g.Name 2)) (resolve pd g.InputFile),
      dirs := scd :: findingDirOf pd g.Name :: scd :: findingDirOf pd f.Name :: fs₀.dirs },
    ?_, ?_, ?_, ?_, ?_, ?_, hne_s1_s2, hne_c1_c2, ?_, ?_, ?_, ?_⟩
  · rw [hmv1]
  · rw [hmv2]
  · -- slot 1 keeps its bytes
    show lookupFile (eraseFile ((corpusPath scd g.Name 2, bs₂) ::
        eraseFile ((slotPath (findingDirOf pd g.Name) 2, bs₂) ::
          eraseFile (eraseFile ((corpusPath scd f.Name 1, bs₁) ::
            eraseFile ((slotPath (findingDirOf pd f.Name) 1, bs₁) ::
              eraseFile fs₀.files (slotPath (findingDirOf pd f.Name) 1))
              (corpusPath scd f.Name 1)) (resolve pd f.InputFile))
            (slotPath (findingDirOf pd g.Name) 2))
          (corpusPath scd g.Name 2)) (resolve pd g.InputFile))
      (slotPath (findingDirOf pd f.Name) 1) = some bs₁
    rw [hg]
    rw [lookup_store_other _ _ _ _ _ _ (fun h => hne_s1_r2 h) (fun h => hne_s1_s2 h)
      (fun h => hne_s1_c2 h)]
    exact lookup_store_slot _ _ _ _ _ hne_s1_r1 hne_s1_c1
  · -- slot 2 holds the second bytes
    show lookupFile (eraseFile ((corpusPath scd g.Name 2, bs₂) ::
        eraseFile ((slotPath (findingDirOf pd g.Name) 2, bs₂) ::
          eraseFile (eraseFile ((corpusPath scd f.Name 1, bs₁) ::
            eraseFile ((slotPath (findingDirOf pd f.Name) 1, bs₁) ::
              eraseFile fs₀.files (slotPath (findingDirOf pd f.Name) 1))
              (corpusPath scd f.Name 1)) (resolve pd f.InputFile))
            (slotPath (findingDirOf pd g.Name) 2))
          (corpusPath scd g.Name 2)) (resolve pd g.InputFile))
      (slotPath (findingDirOf pd f.Name) 2) = some bs₂
    rw [hg]
    exact lookup_store_slot _ _ _ _ _ (fun h => hne_s2_r2 h) (fun h => hne_s2_c2 h)
  · -- corpus entry 1 keeps its bytes
    show lookupFile (eraseFile ((corpusPath scd g.Name 2, bs₂) ::
        eraseFile ((slotPath (findingDirOf pd g.Name) 2, bs₂) ::
          eraseFile (eraseFile ((corpusPath scd f.Name 1, bs₁) ::
            eraseFile ((slotPath (findingDirOf pd f.Name) 1, bs₁) ::
              eraseFile fs₀.files (slotPath (findingDirOf pd f.Name) 1))
              (corpusPath scd f.Name 1)) (resolve pd f.InputFile))
            (slotPath (findingDirOf pd g.Name) 2))
          (corpusPath scd g.Name 2)) (resolve pd g.InputFile))
      (corpusPath scd f.Name 1) = some bs₁
    rw [hg]
    rw [lookup_store_other _ _ _ _ _ _ (fun h => hne_c1_r2 h) (fun h => hne_c1_s2 h)
      (fun h => hne_c1_c2 h)]
    exact lookup_store_seed _ _ _ _ _ hne_c1_r1
  · -- corpus entry 2 holds the second bytes
    show lookupFile (eraseFile ((corpusPath scd g.Name 2, bs₂) ::
        eraseFile ((slotPath (findingDirOf pd g.Name) 2, bs₂) ::
          eraseFile (eraseFile ((corpusPath scd f.Name 1, bs₁) ::
            eraseFile ((slotPath (findingDirOf pd f.Name) 1, bs₁) ::
              eraseFile fs₀.files (slotPath (findingDirOf pd f.Name) 1))
              (corpusPath scd f.Name 1)) (resolve pd f.InputFile))
            (slotPath (findingDirOf pd g.Name) 2))
          (corpusPath scd g.Name 2)) (resolve pd g.InputFile))
      (corpusPath scd f.Name 2) = some bs₂
    rw [hg]
    exact lookup_store_seed _ _ _ _ _ (fun h => hne_c2_r2 h)
  · rfl
  · show corpusPath scd g.Name 2 = corpusPath scd f.Name 2
    rw [hg]
  · rfl
  · show relSlot g.Name 2 = relSlot f.Name 2
    rw [hg]

/-- Witness for C5: storing `AAAA` then `BBBB` for `crash-abc`. -/
theorem c5_distinct_inputs_witness :
    ∃ f₁ fs₁ f₂ fs₂,
      (MoveInputFile { Name := ("crash-abc"), InputFile := ("/tmp/in1") } ("/p") ("/corpus")
        ("/p") none none
        { files := [(("/tmp/in1"), ("AAAA")), (("/tmp/in2"), ("BBBB"))], dirs := [] }).1
        = Except.ok (f₁, fs₁) ∧
      (MoveInputFile { Name := ("crash-abc"), InputFile := ("/tmp/in2") } ("/p") ("/corpus")
        ("/p") none none fs₁).1 = Except.ok (f₂, fs₂) ∧
      lookupFile fs₂.files (slotPath (findingDirOf ("/p") ("crash-abc")) 1) = some ("AAAA") ∧
      lookupFile fs₂.files (slotPath (findingDirOf ("/p") ("crash-abc")) 2) = some ("BBBB") ∧
      lookupFile fs₂.files (corpusPath ("/corpus") ("crash-abc") 1) = some ("AAAA") ∧
      lookupFile fs₂.files (corpusPath ("/corpus") ("crash-abc") 2) = some ("BBBB") ∧
      slotPath (findingDirOf ("/p") ("crash-abc")) 1
        ≠ slotPath (findingDirOf ("/p") ("crash-abc")) 2 ∧
      corpusPath ("/corpus") ("crash-abc") 1 ≠ corpusPath ("/corpus") ("crash-abc") 2 ∧
      f₁.seedPath = corpusPath ("/corpus") ("crash-abc") 1 ∧
      f₂.seedPath = corpusPath ("/corpus") ("crash-abc") 2 ∧
      f₁.InputFile = relSlot ("crash-abc") 1 ∧
      f₂.InputFile = relSlot ("crash-abc") 2 :=
  c5_distinct_inputs { Name := ("crash-abc"), InputFile := ("/tmp/in1") }
    { Name := ("crash-abc"), InputFile := ("/tmp/in2") } ("/p") ("/corpus")
    ("AAAA") ("BBBB")
    { files := [(("/tmp/in1"), ("AAAA")), (("/tmp/in2"), ("BBBB"))], dirs := [] }
    rfl (by decide) (by decide) (by decide) (by decide) (by decide) (by decide) (by decide)
    (by decide)

/-- A findings root that does not exist has no directory entries. -/
theorem childNames_nil_of_not_dirExists (fs : FS) (dir : String)
    (h : dirExists fs dir = false) : childNames fs dir = [] := by
  rw [dirExists, Bool.or_eq_false_iff] at h
  obtain ⟨hdirs, hfiles⟩ := h
  rw [List.any_eq_false] at hdirs hfiles
  have h1 : fs.dirs.filterMap (childOf dir) = [] := by
    rw [List.filterMap_eq_nil_iff]
    intro d hd
    have hdd := hdirs d hd
    simp only [Bool.not_eq_true, Bool.or_eq_false_iff] at hdd
    rw [childOf, hdd.2]
    simp
  have h2 : fs.files.filterMap (fun e => childOf dir e.1) = [] := by
    rw [List.filterMap_eq_nil_iff]
    intro e he
    have hee := hfiles e he
    simp only [Bool.not_eq_true] at hee
    rw [childOf, hee]
    simp
  rw [childNames, h1, h2]
  simp [dedupNames]

/-- C8: `ListFindings` returns the loaded findings ordered newest first
(descending `createdAt`), and a missing findings root yields the empty
list rather than an error. -/
theorem c8_list_order (dec : String → Except Err Finding) (pd : String) (fs : FS) :
    (dirExists fs (joinPath pd nameFindingsDir) = false →
      ListFindings dec pd fs = Except.ok []) ∧
    (∀ l, ListFindings dec pd fs = Except.ok l →
      List.Sorted newestFirst l ∧
      ∃ l₀, loadAll dec pd fs (childNames fs (joinPath pd nameFindingsDir)) = Except.ok l₀ ∧
        l.Perm l₀) := by
  constructor
  · intro h
    simp [ListFindings, h]
  · intro l hl
    by_cases hdir : dirExists fs (joinPath pd nameFindingsDir) = true
    · simp only [ListFindings, hdir, if_true] at hl
      cases hload : loadAll dec pd fs (childNames fs (joinPath pd nameFindingsDir)) with
      | error e =>
        rw [hload] at hl
        exact Except.noConfusion hl
      | ok l₀ =>
        rw [hload] at hl
        have hinj : List.insertionSort newestFirst l₀ = l := by
          exact Except.ok.inj hl
        subst hinj
        exact ⟨List.sorted_insertionSort newestFirst l₀, l₀, rfl,
          List.perm_insertionSort newestFirst l₀⟩
    · have hfalse : dirExists fs (joinPath pd nameFindingsDir) = false := by
        simp only [Bool.not_eq_true] at hdir
        exact hdir
      have hnil : ListFindings dec pd fs = Except.ok [] := by
        simp [ListFindings, hfalse]
      rw [hnil] at hl
      have : ([] : List Finding) = l := Except.ok.inj hl
      subst this
      refine ⟨List.sorted_nil, [], ?_, List.Perm.refl _⟩
      rw [childNames_nil_of_not_dirExists fs _ hfalse]
      rfl

/-- Witness for C8: an empty filesystem has no findings root, so the
listing is empty, sorted and a permutation of the (empty) loads. -/
theorem c8_list_order_witness :
    ListFindings (fun _ => Except.error Err.notExist) ("/p") { files := [], dirs := [] }
      = Except.ok [] ∧
    (List.Sorted newestFirst ([] : List Finding) ∧
      ∃ l₀, loadAll (fun _ => Except.error Err.notExist) ("/p") { files := [], dirs := [] }
        (childNames { files := [], dirs := [] } (joinPath ("/p") nameFindingsDir))
        = Except.ok l₀ ∧ List.Perm ([] : List Finding) l₀) :=
  ⟨(c8_list_order (fun _ => Except.error Err.notExist) ("/p")
      { files := [], dirs := [] }).1 rfl,
    (c8_list_order (fun _ => Except.error Err.notExist) ("/p")
      { files := [], dirs := [] }).2 []
      ((c8_list_order (fun _ => Except.error Err.notExist) ("/p")
        { files := [], dirs := [] }).1 rfl)⟩

/-- Keys contributed by one `omitempty` field. -/
theorem mem_chunk_iff (c : Prop) [Decidable c] (k k₀ : String) (v : Json) :
    (k ∈ ((if c then ([] : List (String × Json)) else [(k₀, v)]).map Prod.fst))
      ↔ (k = k₀ ∧ ¬ c) := by
  by_cases h : c <;> simp [h]

theorem sublist_chunk (c : Prop) [Decidable c] (k : String) (v : Json) :
    ((if c then ([] : List (String × Json)) else [(k, v)]).map Prod.fst).Sublist [k] := by
  by_cases h : c <;> simp [h]

/-- Keys of the marshalled Finding record, characterized: a key appears
exactly when its field is non-empty (`InputFile`, untagged, and
`created_at`, a struct that `encoding/json` never treats as empty, are
always present). -/
theorem mem_findingFields_keys_iff (f : Finding) (k : String) :
    k ∈ (findingFields f).map Prod.fst ↔
      ((k = ("name" : String) ∧ ¬ f.Name = "") ∨
        (k = ("type" : String) ∧ ¬ f.Type_ = ("" : String)) ∨
        (k = ("input_data" : String) ∧ ¬ f.InputData = "") ∨
        (k = ("logs" : String) ∧ ¬ f.Logs = []) ∨
        (k = ("details" : String) ∧ ¬ f.Details = "") ∨
        (k = ("human_readable_input" : String) ∧ ¬ f.HumanReadableInput = "") ∨
        (k = ("more_details" : String) ∧ ¬ f.MoreDetails = none) ∨
        (k = ("tag" : String) ∧ ¬ f.Tag = 0) ∨
        (k = ("short_description" : String) ∧ ¬ f.ShortDescription = "") ∨
        k = ("InputFile" : String) ∨ k = ("created_at" : String) ∨
        (k = ("stack_trace" : String) ∧ ¬ f.StackTrace.isEmpty = true)) := by
  cases hm : f.MoreDetails with
  | none =>
    rw [findingFields, hm]
    simp only [List.map_append, List.mem_append, mem_chunk_iff, List.map_cons, List.map_nil,
      List.mem_singleton, List.not_mem_nil, eq_self_iff_true, not_true, and_false, or_false,
      false_or, or_assoc]
  | some d =>
    rw [findingFields, hm]
    have hsome : (¬ (some d = none)) = True :=
      eq_true (fun hh => Option.noConfusion hh)
    simp only [List.map_append, List.mem_append, mem_chunk_iff, List.map_cons, List.map_nil,
      List.mem_singleton, List.not_mem_nil, hsome, and_true, or_false, or_assoc]

/-- C9: the marshalled record uses exactly the contract's field names in
struct order (its key list is a sublist of the full contract key list),
every empty `omitempty` field is omitted, a non-empty `type` field is
serialized as the enumeration's literal string, and the enumeration
constants carry exactly the uppercase literals of the contract. -/
theorem c9_json_contract (f : Finding) :
    ((findingFields f).map Prod.fst).Sublist
      [("name" : String), ("type" : String), ("input_data" : String), ("logs" : String),
        ("details" : String), ("human_readable_input" : String), ("more_details" : String),
        ("tag" : String), ("short_description" : String), ("InputFile" : String),
        ("created_at" : String), ("stack_trace" : String)] ∧
    (f.Name = "" → ¬ ("name" : String) ∈ (findingFields f).map Prod.fst) ∧
    (f.Type_ = ("" : String) → ¬ ("type" : String) ∈ (findingFields f).map Prod.fst) ∧
    (f.InputData = "" → ¬ ("input_data" : String) ∈ (findingFields f).map Prod.fst) ∧
    (f.Logs = [] → ¬ ("logs" : String) ∈ (findingFields f).map Prod.fst) ∧
    (f.Details = "" → ¬ ("details" : String) ∈ (findingFields f).map Prod.fst) ∧
    (f.HumanReadableInput = "" →
      ¬ ("human_readable_input" : String) ∈ (findingFields f).map Prod.fst) ∧
    (f.MoreDetails = none → ¬ ("more_details" : String) ∈ (findingFields f).map Prod.fst) ∧
    (f.Tag = 0 → ¬ ("tag" : String) ∈ (findingFields f).map Prod.fst) ∧
    (f.ShortDescription = "" →
      ¬ ("short_description" : String) ∈ (findingFields f).map Prod.fst) ∧
    (f.StackTrace = [] → ¬ ("stack_trace" : String) ∈ (findingFields f).map Prod.fst) ∧
    (¬ f.Type_ = ("" : String) → (("type" : String), Json.str f.Type_) ∈ findingFields f) ∧
    (("InputFile" : String), Json.str f.InputFile) ∈ findingFields f ∧
    (("created_at" : String), Json.timeVal f.CreatedAt) ∈ findingFields f ∧
    ErrorType_UNKNOWN_ERROR = ("UNKNOWN_ERROR" : String) ∧
    ErrorType_COMPILATION_ERROR = ("COMPILATION_ERROR" : String) ∧
    ErrorType_CRASH = ("CRASH" : String) ∧
    ErrorType_WARNING = ("WARNING" : String) ∧
    ErrorType_RUNTIME_ERROR = ("RUNTIME_ERROR" : String) := by
  refine ⟨?_, ?_, ?_, ?_, ?_, ?_, ?_, ?_, ?_, ?_, ?_, ?_, ?_, ?_, rfl, rfl, rfl, rfl, rfl⟩
  · have hA7 : ((match f.MoreDetails with
        | none => ([] : List (String × Json))
        | some d => [(("more_details" : String), errorDetailsJson d)]).map Prod.fst).Sublist
        [("more_details" : String)] := by
      cases f.MoreDetails <;> simp
    have hA10 : (([(("InputFile" : String), Json.str f.InputFile)]).map Prod.fst).Sublist
        [("InputFile" : String)] := by simp
    have hA11 : (([(("created_at" : String), Json.timeVal f.CreatedAt)]).map Prod.fst).Sublist
        [("created_at" : String)] := by simp
    rw [findingFields]
    simp only [List.map_append]
    show List.Sublist _
      ((((((((((([("name" : String)] ++ [("type" : String)]) ++ [("input_data" : String)])
        ++ [("logs" : String)]) ++ [("details" : String)])
        ++ [("human_readable_input" : String)]) ++ [("more_details" : String)])
        ++ [("tag" : String)]) ++ [("short_description" : String)])
        ++ [("InputFile" : String)]) ++ [("created_at" : String)])
        ++ [("stack_trace" : String)])
    exact (((((((((((sublist_chunk _ _ _).append (sublist_chunk _ _ _)).append
      (sublist_chunk _ _ _)).append (sublist_chunk _ _ _)).append
      (sublist_chunk _ _ _)).append (sublist_chunk _ _ _)).append hA7).append
      (sublist_chunk _ _ _)).append (sublist_chunk _ _ _)).append hA10).append
      hA11).append (sublist_chunk _ _ _)
  · intro h
    rw [mem_findingFields_keys_iff]
    simp [h]
  · intro h
    rw [mem_findingFields_keys_iff]
    simp [h]
  · intro h
    rw [mem_findingFields_keys_iff]
    simp [h]
  · intro h
    rw [mem_findingFields_keys_iff]
    simp [h]
  · intro h
    rw [mem_findingFields_keys_iff]
    simp [h]
  · intro h
    rw [mem_findingFields_keys_iff]
    simp [h]
  · intro h
    rw [mem_findingFields_keys_iff]
    simp [h]
  · intro h
    rw [mem_findingFields_keys_iff]
    simp [h]
  · intro h
    rw [mem_findingFields_keys_iff]
    simp [h]
  · intro h
    rw [mem_findingFields_keys_iff]
    simp [h]
  · intro h
    rw [findingFields]
    simp [h]
  · rw [findingFields]
    simp
  · rw [findingFields]
    simp
